import Mathlib

/-!
Verification development for the f2v2f backend.

The subject is the job execution and native-codec bridge subsystem:
the job state machine of `src/backend/app.py`, the ctypes bridge of
`src/backend/f2v2f.py`, and the provenance registry (the `files` table of
app.py).  The native codec engine itself (a Rust dynamic library) is not
vendored in the repository; where a property depends on it, the engine's
behaviour is modelled from the specification and the definition says so in
its doc comment.
-/

/-- `JobStatus` enum (app.py lines 56–61). -/
inductive JobStatus
  | pending
  | running
  | completed
  | failed
deriving DecidableEq

/-- `Job` dataclass (app.py lines 64–75).  `total_size` is the attribute the
worker attaches dynamically (`job.total_size = input_path.stat().st_size`,
app.py 293 and 434); before that assignment `hasattr(job, "total_size")` is
false, modelled by `none`.  `progress` is a Python int that only ever holds
non-negative values here, modelled by `Nat`. -/
structure Job where
  job_id : String
  operation : String
  input_file : String
  output_file : String
  status : JobStatus
  progress : Nat
  error_message : Option String
  result_url : Option String
  total_size : Option Nat
deriving DecidableEq

/-- The `Job(...)` construction in `encode_file` (app.py 269–275) and
`decode_video` (app.py 412–418): status `PENDING`, the dataclass defaults
`progress = 0`, `error_message = None`, `result_url = None`, and no
`total_size` attribute yet. -/
def mkJob (jid op inp outp : String) : Job :=
  ⟨jid, op, inp, outp, JobStatus.pending, 0, none, none, none⟩

/-- The body of `progress_callback` (app.py 283–289 and 426–431):
`job.progress = int((total_bytes / job.total_size) * 100)` when
`hasattr(job, "total_size") and job.total_size > 0`, else `job.progress = 50`.
The Python float division followed by `int(...)` truncation is modelled by
exact natural floor division `total_bytes * 100 / t`. -/
def progressValue (total_size : Option Nat) (total_bytes : Nat) : Nat :=
  match total_size with
  | some t => if 0 < t then total_bytes * 100 / t else 50
  | none => 50

/-- A row of the `files` table (schema at app.py 108–120).  The column
`type` is rendered as `ftype` (`type` is better avoided as a Lean field
name); `created_at` is the ISO-8601 text column — `datetime.now().isoformat()`
strings compare lexicographically in chronological order, so the column is
modelled by a `Nat` timestamp that preserves that ordering. -/
structure FileRow where
  id : String
  name : String
  ftype : String
  size : Nat
  created_at : Nat
  video_url : Option String
  original_file : Option String
  checksum : Option String
  chunk_size : Option Nat
deriving DecidableEq

/-- The successive job states produced by the progress callbacks: each
callback delivery overwrites `job.progress` with
`progressValue job.total_size total_bytes` and touches nothing else. -/
def cbStates (j : Job) : List Nat → List Job
  | [] => []
  | b :: rest =>
    let j2 := {j with progress := progressValue j.total_size b}
    j2 :: cbStates j2 rest

/-- Shared body of the worker closures `encode_task` (app.py 279–344) and
`decode_task` (app.py 422–486); the two are the same state machine modulo
the operation name, the codec invoked, the messages and the registry row
inserted.  Returns the sequence of job states a status poller could observe
(the job record after each mutation) together with the final contents of
the `files` table.

* `cbs` — the `total_bytes` values delivered by the engine's progress
  callbacks, in order;
* `opOk` — whether the `encoder.encode` / `decoder.decode` call returned
  instead of raising;
* `outputExists` — the `output_path.exists()` check (app.py 300 / 441);
* `registryOk` — whether the bookkeeping block that INSERTs the file
  record (app.py 308–330 / 449–472) ran without exception.  That block sits
  in its own inner `try`, whose `except` only calls `logger.warning`, so a
  bookkeeping failure alters neither the job nor (by rollback) the table.

The steps, in source order, one observable state per mutation of the job
record (the status route reads the record without synchronization, so every
single assignment is observable): `job.status = RUNNING`;
`job.total_size = ...`; the callback updates; then either the failure path
(outer `except`, two assignments: `job.status = FAILED`, then
`job.error_message = str(e)`, app.py 336–337 / 478–479) or the success path
(three assignments: `job.status = COMPLETED`, then `job.progress = 100`,
then `job.result_url = ...`, app.py 303–305 / 444–446) followed by the
swallowed registry step, which never touches the job. -/
def runWorker (j0 : Job) (inputSize : Nat) (cbs : List Nat)
    (opOk outputExists registryOk : Bool)
    (resultUrl errMsg missingMsg : String) (newRow : FileRow)
    (db : List FileRow) : List Job × List FileRow :=
  let s1 := {j0 with status := JobStatus.running}
  let s2 := {s1 with total_size := some inputSize}
  let ps := cbStates s2 cbs
  let sl := (ps.getLast?).getD s2
  if opOk then
    if outputExists then
      let sca := {sl with status := JobStatus.completed}
      let scb := {sca with progress := 100}
      let scc := {scb with result_url := some resultUrl}
      let db2 := if registryOk then db ++ [newRow] else db
      (j0 :: s1 :: s2 :: (ps ++ [sca, scb, scc]), db2)
    else
      let sfa := {sl with status := JobStatus.failed}
      let sfb := {sfa with error_message := some missingMsg}
      (j0 :: s1 :: s2 :: (ps ++ [sfa, sfb]), db)
  else
    let sfa := {sl with status := JobStatus.failed}
    let sfb := {sfa with error_message := some errMsg}
    (j0 :: s1 :: s2 :: (ps ++ [sfa, sfb]), db)

/-- The row INSERTed by `encode_task` after a successful encode
(app.py 315–327): name and `original_file` are the uploaded file's original
name, type `"encoded"`, checksum NULL, and the `chunk_size` column is not in
the INSERT's column list, hence NULL. -/
def encodeRegistryRow (rid origName resultUrl : String)
    (outSize tstamp : Nat) : FileRow :=
  ⟨rid, origName, "encoded", outSize, tstamp, some resultUrl,
   some origName, none, none⟩

/-- The row INSERTed by `decode_task` after a successful decode
(app.py 457–469): display name is the recovered original name when one was
found, else the output name; type `"original"`; checksum of the recovered
bytes present. -/
def decodeRegistryRow (rid : String) (origName : Option String)
    (outputName resultUrl : String) (outSize tstamp : Nat)
    (chksum : String) : FileRow :=
  ⟨rid,
   (match origName with | some n => n | none => outputName),
   "original", outSize, tstamp, some resultUrl, origName, some chksum, none⟩

/-- `encode_task` (app.py 279–344), as an instance of `runWorker`: the job
starts as the `Job` record built by `encode_file`, the result locator is
`f"/api/download/{output_name}"` (app.py 305), the missing-output message
comes from app.py 301, and the registry row from app.py 315–327. -/
def encode_task (jid inFile outFile : String) (inputSize : Nat)
    (cbs : List Nat) (opOk outputExists registryOk : Bool)
    (outputName errMsg origName : String) (outSize tstamp : Nat)
    (rid : String) (db : List FileRow) : List Job × List FileRow :=
  runWorker (mkJob jid ("encode") inFile outFile) inputSize cbs
    opOk outputExists registryOk
    ("/api/download/" ++ outputName) errMsg
    ("Encoder did not create output file: " ++ outFile)
    (encodeRegistryRow rid origName ("/api/download/" ++ outputName)
      outSize tstamp)
    db

/-- `decode_task` (app.py 422–486), as an instance of `runWorker`; the
missing-output message comes from app.py 442 and the registry row from
app.py 457–469. -/
def decode_task (jid inFile outFile : String) (inputSize : Nat)
    (cbs : List Nat) (opOk outputExists registryOk : Bool)
    (outputName errMsg : String) (origName : Option String)
    (outSize tstamp : Nat) (rid chksum : String)
    (db : List FileRow) : List Job × List FileRow :=
  runWorker (mkJob jid ("decode") inFile outFile) inputSize cbs
    opOk outputExists registryOk
    ("/api/download/" ++ outputName) errMsg
    ("Decoder did not create output file: " ++ outFile)
    (decodeRegistryRow rid origName outputName
      ("/api/download/" ++ outputName) outSize tstamp chksum)
    db

/-! ### Error codes and `_check_error` (f2v2f.py 50–59, 143–172) -/

/-- `ErrorCode.SUCCESS` (f2v2f.py 51). -/
def ecSuccess : Nat := 0
/-- `ErrorCode.INVALID_INPUT` (f2v2f.py 52). -/
def ecInvalidInput : Nat := 1
/-- `ErrorCode.IO_ERROR` (f2v2f.py 53). -/
def ecIoError : Nat := 2
/-- `ErrorCode.ENCODING_ERROR` (f2v2f.py 54). -/
def ecEncodingError : Nat := 3
/-- `ErrorCode.DECODING_ERROR` (f2v2f.py 55). -/
def ecDecodingError : Nat := 4
/-- `ErrorCode.CONFIG_ERROR` (f2v2f.py 56). -/
def ecConfigError : Nat := 5
/-- `ErrorCode.OPERATION_IN_PROGRESS` (f2v2f.py 57). -/
def ecOpInProgress : Nat := 6
/-- `ErrorCode.INVALID_HANDLE` (f2v2f.py 58). -/
def ecInvalidHandle : Nat := 7
/-- `ErrorCode.UNKNOWN` (f2v2f.py 59). -/
def ecUnknown : Nat := 255

/-- The exception classes of f2v2f.py 118–140. -/
inductive PyExc
  | F2V2FError
  | InvalidInputError
  | EncodingError
  | DecodingError
  | ConfigError
deriving DecidableEq

/-- Python's `error_msg or default`: `None` and the empty string are falsy,
so either yields `default`. -/
def msgOr (m : Option String) (dflt : String) : String :=
  match m with
  | some s => if s = "" then dflt else s
  | none => dflt

/-- The `error_map` dictionary literal inside `_check_error`
(f2v2f.py 161–169): exactly seven keys — note the absence of an entry for
`ErrorCode.OPERATION_IN_PROGRESS`. -/
def errorMap (code : Nat) (errMsg : Option String) :
    Option (PyExc × String) :=
  if code = ecInvalidInput then
    some (PyExc.InvalidInputError, msgOr errMsg ("Invalid input"))
  else if code = ecIoError then
    some (PyExc.F2V2FError, msgOr errMsg ("I/O error"))
  else if code = ecEncodingError then
    some (PyExc.EncodingError, msgOr errMsg ("Encoding failed"))
  else if code = ecDecodingError then
    some (PyExc.DecodingError, msgOr errMsg ("Decoding failed"))
  else if code = ecConfigError then
    some (PyExc.ConfigError, msgOr errMsg ("Configuration error"))
  else if code = ecInvalidHandle then
    some (PyExc.F2V2FError, msgOr errMsg ("Invalid handle"))
  else if code = ecUnknown then
    some (PyExc.F2V2FError, msgOr errMsg ("Unknown error"))
  else none

/-- `_check_error` (f2v2f.py 143–172): returns `none` on `SUCCESS`,
otherwise the exception class and message that get raised.  A code outside
the dictionary falls to the `.get` default
`(F2V2FError, error_msg or f"Unknown error code: {error_code}")`. -/
def checkError (code : Nat) (errMsg : Option String) :
    Option (PyExc × String) :=
  if code = ecSuccess then none
  else
    some ((errorMap code errMsg).getD
      (PyExc.F2V2FError, msgOr errMsg ("Unknown error code: " ++ toString code)))

/-! ### The codec engine, modelled from the spec (round-trip property)

The engine is the Rust dynamic library the bindings load; its source is not
in the repository, so it is modelled from the specification here. -/

/-- Modelled from the spec: the engine's chunking granularity "partitions the
input stream into fixed-size units before they are mapped into frames"
(spec §3 Codec Handle, glossary "Chunk size").  The stream is padded with
zero bytes up to a multiple of the chunk size so every frame is
well-formed. -/
def padTo (c : Nat) (B : List Nat) : List Nat :=
  B ++ List.replicate ((c - B.length % c) % c) 0

/-- Fuel-indexed chunk splitter: `chunksAux fuel c l` splits `l` into pieces
of `c` elements (fuel bounds the recursion by `l.length`). -/
def chunksAux : Nat → Nat → List Nat → List (List Nat)
  | 0, _, _ => []
  | _ + 1, _, [] => []
  | fuel + 1, c, l => l.take c :: chunksAux fuel c (l.drop c)

/-- Split a byte stream into chunks of `c` bytes. -/
def chunks (c : Nat) (l : List Nat) : List (List Nat) :=
  chunksAux l.length c l

/-- Modelled from the spec: the video artifact an encode session produces —
the payload length together with the frame payloads (spec §2, §4.1: encode
"streams the input, emitting frames of the configured geometry"). -/
structure VideoArtifact where
  byteLen : Nat
  frames : List (List Nat)
deriving DecidableEq

/-- Modelled from the spec: the engine's encode entry point
(`f2v2f_encode_file` behind `Encoder.encode`, f2v2f.py 212–245) — the
original byte stream, chunked into fixed-size frame payloads, with its
exact length recorded so decode can strip the padding. -/
def engineEncode (chunkSize : Nat) (B : List Nat) : VideoArtifact :=
  ⟨B.length, chunks chunkSize (padTo chunkSize B)⟩

/-- Modelled from the spec: the engine's decode entry point
(`f2v2f_decode_file` behind `Decoder.decode`, f2v2f.py 287–320) — the
inverse operation, which "must reproduce the original byte stream exactly"
(spec §4.1): concatenate the frame payloads and truncate to the recorded
length. -/
def engineDecode (a : VideoArtifact) : List Nat :=
  (a.frames.flatten).take a.byteLen

/-! ### `pathlib` stem/suffix and the provenance lookup (app.py 382–405) -/

/-- Index of the last occurrence of `c`, as Python's `str.rfind`. -/
def lastIdxOf (c : Char) : List Char → Option Nat
  | [] => none
  | x :: xs =>
    match lastIdxOf c xs with
    | some i => some (i + 1)
    | none => if x = c then some 0 else none

/-- CPython `PurePath.stem` on a bare file name: `name[:i]` when
`0 < i < len(name) - 1` for `i = name.rfind('.')`, else the whole name. -/
def pyStemL (s : List Char) : List Char :=
  match lastIdxOf '.' s with
  | some i => if 0 < i ∧ i < s.length - 1 then s.take i else s
  | none => s

/-- CPython `PurePath.suffix` on a bare file name: `name[i:]` when
`0 < i < len(name) - 1` for `i = name.rfind('.')`, else the empty string. -/
def pySuffixL (s : List Char) : List Char :=
  match lastIdxOf '.' s with
  | some i => if 0 < i ∧ i < s.length - 1 then s.drop i else []
  | none => []

/-- `Path(name).stem` for a plain file name. -/
def pyStem (s : String) : String := String.mk (pyStemL s.data)

/-- `Path(name).suffix` for a plain file name. -/
def pySuffix (s : String) : String := String.mk (pySuffixL s.data)

/-- The row `SELECT ... ORDER BY created_at DESC LIMIT 1` returns from a
bag of rows: one whose `created_at` is maximal (none when the bag is
empty).  Ties are broken by list position, as the SQL leaves them
unspecified. -/
def latestRow : List FileRow → Option FileRow
  | [] => none
  | r :: rs =>
    match latestRow rs with
    | none => some r
    | some m => if r.created_at < m.created_at then some m else some r

/-- The lookup in `decode_video` (app.py 385–392):
`SELECT original_file FROM files WHERE video_url = ? ORDER BY created_at
DESC LIMIT 1` — restricted to the rows matching the url, the latest row by
`created_at`. -/
def findOriginRecord (db : List FileRow) (url : String) : Option FileRow :=
  latestRow (db.filter (fun r => decide (r.video_url = some url)))

/-- `original_filename` as `decode_video` leaves it (app.py 383–392):
the matched row's `original_file`, kept only when truthy
(`if row and row["original_file"]:`). -/
def findOriginName (db : List FileRow) (url : String) : Option String :=
  match findOriginRecord db url with
  | some row =>
    match row.original_file with
    | some n => if n = "" then none else some n
    | none => none
  | none => none

/-- Output-name choice in `decode_video` (app.py 396–404): with a recovered
original name, `f"{uuid4()}_{base_name}{extension}"` (stem and suffix of the
original name); otherwise the generic `f"{uuid4()}_decoded.bin"`.  The url
looked up is `f"/api/download/{filename}"` for the (sanitized) uploaded
file name (app.py 387–388). -/
def decodeOutputName (db : List FileRow) (filename uuid : String) : String :=
  match findOriginName db ("/api/download/" ++ filename) with
  | some n => uuid ++ "_" ++ pyStem n ++ pySuffix n
  | none => uuid ++ "_decoded.bin"

/-! ### The upload routes (app.py 224–357, 360–499) -/

/-- The server state the routes touch before spawning a worker: the job
map, the upload folder and the output folder (as lists of stored names). -/
structure RouteState where
  jobs : List Job
  uploads : List String
  outputs : List String
deriving DecidableEq

/-- Outcome of a submission route: an HTTP 400 rejection with its message,
or HTTP 202 with the new job id. -/
inductive RouteOutcome
  | badRequest (msg : String)
  | accepted (jobId : String)
deriving DecidableEq

/-- `encode_file` (app.py 224–276), up to the point the worker thread is
spawned.  `filePart` is `none` when `"file" not in request.files`, otherwise
the submitted `file.filename`; `secured` is werkzeug's `secure_filename`
(an external collaborator, kept abstract); `uuidU`, `uuidO`, `jobId` are the
three generated UUIDs.  The two rejection branches (app.py 237–242) return
before the upload is saved and before any job is created. -/
def encode_file (st : RouteState) (filePart : Option String)
    (secured : String → String) (uuidU uuidO jobId : String) :
    RouteOutcome × RouteState :=
  match filePart with
  | none => (RouteOutcome.badRequest ("No file provided"), st)
  | some fn =>
    if fn = "" then (RouteOutcome.badRequest ("Empty filename"), st)
    else
      let filename := secured fn
      let uniqueName := uuidU ++ "_" ++ filename
      let outputName := uuidO ++ "_" ++ pyStem filename ++ ".mp4"
      let job := mkJob jobId ("encode") uniqueName outputName
      (RouteOutcome.accepted jobId,
       {st with jobs := st.jobs ++ [job],
                uploads := st.uploads ++ [uniqueName]})

/-- `decode_video` (app.py 360–499), up to the point the worker thread is
spawned; `db` is the `files` table consulted for the origin name.  The two
rejection branches (app.py 369–374) mirror `encode_file`'s. -/
def decode_video (st : RouteState) (db : List FileRow)
    (filePart : Option String) (secured : String → String)
    (uuidU uuidO jobId : String) : RouteOutcome × RouteState :=
  match filePart with
  | none => (RouteOutcome.badRequest ("No file provided"), st)
  | some fn =>
    if fn = "" then (RouteOutcome.badRequest ("Empty filename"), st)
    else
      let filename := secured fn
      let uniqueName := uuidU ++ "_" ++ filename
      let outputName := decodeOutputName db filename uuidO
      let job := mkJob jobId ("decode") uniqueName outputName
      (RouteOutcome.accepted jobId,
       {st with jobs := st.jobs ++ [job],
                uploads := st.uploads ++ [uniqueName]})

/-! ### Deleting a file record (app.py 557–597) -/

/-- The state `delete_file_record` touches: the `files` table plus the
output and upload folders. -/
structure StoreState where
  files : List FileRow
  outputs : List String
  uploads : List String
deriving DecidableEq

/-- Result of `delete_file_record`: HTTP 200 or the 404 `File not found`. -/
inductive DeleteResult
  | ok
  | notFound
deriving DecidableEq

/-- `video_url.split('/')[-1]` (app.py 574). -/
def lastUrlComponent (url : String) : String :=
  ((url.splitOn ("/")).getLast?).getD ("")

/-- `SELECT * FROM files WHERE id = ?` followed by `fetchone()`
(app.py 565–566): the first row with the id. -/
def findRowById (db : List FileRow) (fid : String) : Option FileRow :=
  db.find? (fun r => decide (r.id = fid))

/-- `delete_file_record` (app.py 557–597).  Unknown id: the 404 branch
(app.py 568–569) changes nothing.  Known id: the output file named by the
last component of `video_url` is unlinked if present (app.py 572–578, a
truthy check guards `video_url`), the retained original upload is unlinked
if present (app.py 581–586), and the row is deleted (app.py 589).
`List.erase` is a no-op when the name is absent, matching the
`filepath.exists()` guards. -/
def delete_file_record (st : StoreState) (fid : String) :
    DeleteResult × StoreState :=
  match findRowById st.files fid with
  | none => (DeleteResult.notFound, st)
  | some row =>
    let outputs2 :=
      match row.video_url with
      | some url =>
        if url = "" then st.outputs
        else st.outputs.erase (lastUrlComponent url)
      | none => st.outputs
    let uploads2 :=
      match row.original_file with
      | some orig =>
        if orig = "" then st.uploads else st.uploads.erase orig
      | none => st.uploads
    (DeleteResult.ok,
     ⟨st.files.filter (fun r => decide (r.id ≠ fid)), outputs2, uploads2⟩)

/-! ### Handle lifecycle (f2v2f.py 175–251, 253–325) -/

/-- Events at the codec-engine boundary concerning one handle. -/
inductive HandleEvent
  | createOk
  | createFail
  | use
  | free
deriving DecidableEq

/-- Handle events of one `encode_task` worker, in order
(f2v2f.py 200–210, 225, 238–245, 247–250; app.py 296–297).  One fresh
`Encoder` object is local to the worker; `encode()` lazily creates the
handle exactly once (`_create_handle` guards on `self._handle is None`).
If `f2v2f_encode_create` returns NULL, a `ConfigError` is raised with no
handle to release.  Otherwise `f2v2f_encode_file` uses the handle; whether
it succeeds or `_check_error` raises (`opOk`), the worker's `try/except`
contains the fault and at scope exit the object's refcount drops to zero,
so CPython runs `__del__` exactly once, which frees the handle because
`self._handle is not None`. -/
def encoderHandleEvents (createOk opOk : Bool) : List HandleEvent :=
  if createOk then [HandleEvent.createOk, HandleEvent.use, HandleEvent.free]
  else [HandleEvent.createFail]

/-- Handle events of one `decode_task` worker (f2v2f.py 276–285, 300,
313–320, 322–325; app.py 437–438): the `Decoder` lifecycle is symmetric to
the `Encoder` one. -/
def decoderHandleEvents (createOk opOk : Bool) : List HandleEvent :=
  if createOk then [HandleEvent.createOk, HandleEvent.use, HandleEvent.free]
  else [HandleEvent.createFail]

/-- Whether a trace touches a handle after freeing it: any `use` or second
`free` after a `free`. -/
def touchAfterFree : List HandleEvent → Bool
  | [] => false
  | HandleEvent.free :: rest =>
    rest.contains HandleEvent.use || rest.contains HandleEvent.free
      || touchAfterFree rest
  | _ :: rest => touchAfterFree rest

/-! ### Decoder session parameters (f2v2f.py 262–274; app.py 437) -/

/-- Parameters a decoder session is created with (f2v2f.py 262–274). -/
structure DecoderParams where
  width : Nat
  height : Nat
  chunk_size : Nat
deriving DecidableEq

/-- The default parameter values of `Decoder.__init__`
(f2v2f.py 262: `width: int = 1920, height: int = 1080,
chunk_size: int = 4096`). -/
def decoderInitDefaults : DecoderParams := ⟨1920, 1080, 4096⟩

/-- The decoder session `decode_task` constructs: app.py 437 is
`decoder = Decoder()` — no argument is taken from the request (the decode
route reads no form fields at all, app.py 360–380) nor from the matched
provenance row, so the `Decoder.__init__` defaults always apply.  The
parameters are nevertheless a function of the request data here, to state
that they do not depend on it. -/
def decodeTaskDecoder (db : List FileRow) (filename : String) :
    DecoderParams :=
  decoderInitDefaults

/-! ### Helper lemmas -/

/-- Splitting with enough fuel and a positive chunk size loses nothing:
flattening the chunks gives back the stream. -/
theorem chunksAux_flatten (fuel : Nat) :
    ∀ (c : Nat) (l : List Nat), 0 < c → l.length ≤ fuel →
      (chunksAux fuel c l).flatten = l := by
  induction fuel with
  | zero =>
    intro c l _ hl
    have hnil : l = [] := List.eq_nil_of_length_eq_zero (Nat.le_zero.mp hl)
    subst hnil
    rfl
  | succ n ih =>
    intro c l hc hl
    cases l with
    | nil => rfl
    | cons x xs =>
      have hdrop : ((x :: xs).drop c).length ≤ n := by
        rw [List.length_drop]
        simp only [List.length_cons] at hl ⊢
        omega
      show ((x :: xs).take c :: chunksAux n c ((x :: xs).drop c)).flatten
          = x :: xs
      rw [List.flatten_cons, ih c _ hc hdrop, List.take_append_drop]

/-- Claim C1: decoding the artifact produced by encoding any byte sequence
`B` with a positive chunk size yields exactly `B`, bit for bit (byte
equality, hence SHA-256 checksum equality).  The codec itself is the
spec-modelled engine behind `Encoder.encode` / `Decoder.decode`. -/
theorem roundtrip_exact (c : Nat) (B : List Nat) (hc : 0 < c) :
    engineDecode (engineEncode c B) = B := by
  unfold engineDecode engineEncode chunks
  rw [chunksAux_flatten _ _ _ hc (Nat.le_refl _)]
  unfold padTo
  exact List.take_left' rfl

/-- Witness for `roundtrip_exact` at chunk size 4 on a 6-byte input (the
padded stream spans two frames). -/
theorem roundtrip_exact_witness :
    0 < 4 ∧ engineDecode (engineEncode 4 [3, 1, 4, 1, 5, 9]) = [3, 1, 4, 1, 5, 9] :=
  ⟨by decide, roundtrip_exact 4 [3, 1, 4, 1, 5, 9] (by decide)⟩

/-- Claim C3, counterexample: the `error_map` dictionary has no entry for
`ErrorCode.OPERATION_IN_PROGRESS` (6), so that non-success code is not
mapped through the fixed table; with no engine message, `_check_error`
raises the generic fallback `F2V2FError("Unknown error code: 6")` instead
of a fixed default message associated with an `OperationInProgress` kind. -/
theorem op_in_progress_unmapped_cex :
    errorMap ecOpInProgress none = none ∧
      checkError ecOpInProgress none
        = some (PyExc.F2V2FError, "Unknown error code: 6") := by
  constructor
  · rfl
  · rfl

/-- Claim C3, amended: the seven codes 1, 2, 3, 4, 5, 7 and 255 map through
the fixed table to their exception kind with a fixed per-kind default
message when the engine supplies none; `OPERATION_IN_PROGRESS` (6) — though
declared in `ErrorCode` — is absent from the table and falls through to the
generic fallback `F2V2FError` with the message `"Unknown error code: 6"`;
`SUCCESS` raises nothing. -/
theorem error_table_amended :
    checkError ecInvalidInput none
        = some (PyExc.InvalidInputError, "Invalid input") ∧
      checkError ecIoError none = some (PyExc.F2V2FError, "I/O error") ∧
      checkError ecEncodingError none
        = some (PyExc.EncodingError, "Encoding failed") ∧
      checkError ecDecodingError none
        = some (PyExc.DecodingError, "Decoding failed") ∧
      checkError ecConfigError none
        = some (PyExc.ConfigError, "Configuration error") ∧
      checkError ecInvalidHandle none
        = some (PyExc.F2V2FError, "Invalid handle") ∧
      checkError ecUnknown none = some (PyExc.F2V2FError, "Unknown error") ∧
      checkError ecOpInProgress none
        = some (PyExc.F2V2FError, "Unknown error code: 6") ∧
      checkError ecSuccess none = none ∧
      (∀ s : String, s ≠ "" →
        checkError ecEncodingError (some s) = some (PyExc.EncodingError, s)) := by
  refine ⟨rfl, rfl, rfl, rfl, rfl, rfl, rfl, rfl, rfl, ?_⟩
  intro s hs
  show some ((errorMap ecEncodingError (some s)).getD _) = _
  simp [errorMap, ecEncodingError, ecInvalidInput, ecIoError, msgOr, hs]

/-- Witness for the quantified conjunct of `error_table_amended`: a
non-empty engine message is preferred over the fixed default. -/
theorem error_table_amended_witness :
    ("boom" : String) ≠ "" ∧
      checkError ecEncodingError (some ("boom"))
        = some (PyExc.EncodingError, "boom") :=
  ⟨by decide, error_table_amended.2.2.2.2.2.2.2.2.2 ("boom") (by decide)⟩

/-- Claim C4, counterexample: the callback body applies no clamp — when the
engine reports more bytes than `total_size` (here 200 of 100), the stored
progress is 200, outside the claimed range [0, 100]. -/
theorem progress_clamp_cex :
    progressValue (some 100) 200 = 200 ∧ ¬ progressValue (some 100) 200 ≤ 100 := by
  constructor
  · rfl
  · decide

/-- Claim C4, amended: each callback sets progress to the integer ratio
`⌊total_bytes · 100 / total_size⌋` with no clamping — the value lies in
[0, 100] whenever `total_bytes ≤ total_size` but exceeds 100 as soon as the
reported bytes overshoot the total; when `total_size` is zero or the
attribute is absent, progress is set to the fixed fallback 50 instead of
failing. -/
theorem progress_formula (b t : Nat) :
    progressValue none b = 50 ∧
      progressValue (some 0) b = 50 ∧
      (0 < t → progressValue (some t) b = b * 100 / t) ∧
      (0 < t → b ≤ t → progressValue (some t) b ≤ 100) := by
  refine ⟨rfl, rfl, fun ht => by simp [progressValue, ht], fun ht hb => ?_⟩
  simp only [progressValue, if_pos ht]
  calc b * 100 / t ≤ t * 100 / t :=
        Nat.div_le_div_right (Nat.mul_le_mul_right 100 hb)
    _ = 100 := by rw [Nat.mul_comm]; exact Nat.mul_div_cancel 100 ht

/-- Witness for `progress_formula` at 30 bytes of 60. -/
theorem progress_formula_witness :
    (0 < 60 ∧ 30 ≤ 60) ∧
      progressValue (some 60) 30 = 30 * 100 / 60 ∧
      progressValue (some 60) 30 ≤ 100 :=
  ⟨⟨by decide, by decide⟩,
   (progress_formula 30 60).2.2.1 (by decide),
   (progress_formula 30 60).2.2.2 (by decide) (by decide)⟩

/-- Claim C8: once the handle is created, each worker performs exactly one
create and exactly one destroy of it, on the success path and on every
failure path alike (`opOk` is the outcome of the codec call); the handle is
never touched — used or freed again — after the free, and a failed creation
frees nothing (there is no handle to leak or double-free). -/
theorem handle_hygiene (opOk : Bool) :
    (encoderHandleEvents true opOk).count HandleEvent.createOk = 1 ∧
      (encoderHandleEvents true opOk).count HandleEvent.free = 1 ∧
      touchAfterFree (encoderHandleEvents true opOk) = false ∧
      (decoderHandleEvents true opOk).count HandleEvent.createOk = 1 ∧
      (decoderHandleEvents true opOk).count HandleEvent.free = 1 ∧
      touchAfterFree (decoderHandleEvents true opOk) = false ∧
      (encoderHandleEvents false opOk).count HandleEvent.free = 0 ∧
      (decoderHandleEvents false opOk).count HandleEvent.free = 0 := by
  cases opOk <;> decide

/-- Claim C9: whatever the decode request carries and whatever the matched
provenance rows contain (in particular a `chunk_size` column different from
4096), the decoder session of a decode job is constructed with the
`Decoder.__init__` defaults width 1920, height 1080, chunk size 4096. -/
theorem decode_uses_default_decoder_params :
    ∀ (db : List FileRow) (filename : String),
      decodeTaskDecoder db filename = ⟨1920, 1080, 4096⟩ ∧
      decodeTaskDecoder db filename = decoderInitDefaults := by
  intro db filename
  exact ⟨rfl, rfl⟩

/-- Claim C10: a submission with no file part, or with an empty filename,
is rejected with the corresponding 400 error before any side effect: the
job map and the upload folder are returned unchanged, and no job id is
issued — for the encode route and the decode route alike. -/
theorem reject_before_side_effects :
    ∀ (st : RouteState) (db : List FileRow) (secured : String → String)
      (uuidU uuidO jobId : String),
      encode_file st none secured uuidU uuidO jobId
          = (RouteOutcome.badRequest ("No file provided"), st) ∧
        encode_file st (some ("")) secured uuidU uuidO jobId
          = (RouteOutcome.badRequest ("Empty filename"), st) ∧
        decode_video st db none secured uuidU uuidO jobId
          = (RouteOutcome.badRequest ("No file provided"), st) ∧
        decode_video st db (some ("")) secured uuidU uuidO jobId
          = (RouteOutcome.badRequest ("Empty filename"), st) := by
  intro st db secured uuidU uuidO jobId
  exact ⟨rfl, rfl, rfl, rfl⟩

/-- `latestRow` returns `none` exactly on the empty list. -/
theorem latestRow_eq_none (l : List FileRow) :
    latestRow l = none ↔ l = [] := by
  cases l with
  | nil => simp [latestRow]
  | cons a tl =>
    simp only [latestRow]
    cases h : latestRow tl with
    | none => simp
    | some m =>
      constructor
      · intro hcontra
        by_cases hlt : a.created_at < m.created_at <;> simp [hlt] at hcontra
      · intro hcontra
        exact absurd hcontra (List.cons_ne_nil a tl)

/-- The row `latestRow` picks belongs to the list and has maximal
`created_at`. -/
theorem latestRow_spec (l : List FileRow) (r : FileRow)
    (h : latestRow l = some r) :
    r ∈ l ∧ ∀ x ∈ l, x.created_at ≤ r.created_at := by
  induction l generalizing r with
  | nil => simp [latestRow] at h
  | cons a tl ih =>
    simp only [latestRow] at h
    cases htl : latestRow tl with
    | none =>
      have hnil : tl = [] := (latestRow_eq_none tl).mp htl
      subst hnil
      simp only [htl] at h
      cases h
      exact ⟨List.mem_cons_self a [], by
        intro x hx
        cases hx with
        | head => exact Nat.le_refl _
        | tail _ hmem => cases hmem⟩
    | some m =>
      rw [htl] at h
      dsimp only at h
      obtain ⟨hmem, hmax⟩ := ih m htl
      by_cases hlt : a.created_at < m.created_at
      · rw [if_pos hlt] at h
        cases h
        refine ⟨List.mem_cons_of_mem a hmem, ?_⟩
        intro x hx
        cases hx with
        | head => exact Nat.le_of_lt hlt
        | tail _ hx2 => exact hmax x hx2
      · rw [if_neg hlt] at h
        cases h
        refine ⟨List.mem_cons_self a tl, ?_⟩
        intro x hx
        cases hx with
        | head => exact Nat.le_refl _
        | tail _ hx2 => exact Nat.le_trans (hmax x hx2) (Nat.le_of_not_lt hlt)

/-- Concatenating stem and suffix gives back the file name. -/
theorem pyStemL_append_pySuffixL (s : List Char) :
    pyStemL s ++ pySuffixL s = s := by
  unfold pyStemL pySuffixL
  cases h : lastIdxOf '.' s with
  | none => simp
  | some i =>
    by_cases hc : 0 < i ∧ i < s.length - 1
    · simp [hc, List.take_append_drop]
    · simp [hc]

/-- String form of `pyStemL_append_pySuffixL`:
`Path(n).stem + Path(n).suffix == n`. -/
theorem pyStem_append_pySuffix (s : String) :
    pyStem s ++ pySuffix s = s := by
  cases s with
  | mk l =>
    show String.mk (pyStemL l ++ pySuffixL l) = String.mk l
    rw [pyStemL_append_pySuffixL]

/-- Claim C6: when at least one file record's `video_url` matches the
looked-up artifact reference, the origin lookup settles on a matching
record whose `created_at` is maximal (last-write-wins across duplicates of
the same `artifact_ref`); when that record's `original_file` is truthy the
lookup returns it and the decode output name is derived from it,
preserving its stem and extension; when no record matches, the generic
`decoded.bin` fallback name is used. -/
theorem origin_name_lookup :
    (∀ (db : List FileRow) (url : String) (r : FileRow),
      findOriginRecord db url = some r →
        r ∈ db ∧ r.video_url = some url ∧
          ∀ x ∈ db, x.video_url = some url →
            x.created_at ≤ r.created_at) ∧
    (∀ (db : List FileRow) (url : String),
      (∃ r ∈ db, r.video_url = some url) →
        ∃ r, findOriginRecord db url = some r) ∧
    (∀ (db : List FileRow) (url : String) (r : FileRow) (n : String),
      findOriginRecord db url = some r → r.original_file = some n →
        n ≠ "" → findOriginName db url = some n) ∧
    (∀ (db : List FileRow) (fn uuid n : String),
      findOriginName db ("/api/download/" ++ fn) = some n →
        decodeOutputName db fn uuid = uuid ++ "_" ++ pyStem n ++ pySuffix n ∧
          pyStem n ++ pySuffix n = n) ∧
    (∀ (db : List FileRow) (fn uuid : String),
      (∀ r ∈ db, ¬ r.video_url = some ("/api/download/" ++ fn)) →
        decodeOutputName db fn uuid = uuid ++ "_decoded.bin") := by
  refine ⟨?_, ?_, ?_, ?_, ?_⟩
  · intro db url r h
    unfold findOriginRecord at h
    obtain ⟨hmem, hmax⟩ := latestRow_spec _ r h
    rw [List.mem_filter] at hmem
    obtain ⟨hdb, hp⟩ := hmem
    refine ⟨hdb, of_decide_eq_true hp, ?_⟩
    intro x hx hxurl
    exact hmax x (List.mem_filter.mpr ⟨hx, decide_eq_true hxurl⟩)
  · intro db url hex
    obtain ⟨r, hr, hurl⟩ := hex
    have hmemf : r ∈ db.filter (fun r => decide (r.video_url = some url)) :=
      List.mem_filter.mpr ⟨hr, decide_eq_true hurl⟩
    have hne : db.filter (fun r => decide (r.video_url = some url)) ≠ [] :=
      List.ne_nil_of_mem hmemf
    unfold findOriginRecord
    cases hlr : latestRow (db.filter (fun r => decide (r.video_url = some url))) with
    | none => exact absurd ((latestRow_eq_none _).mp hlr) hne
    | some m => exact ⟨m, rfl⟩
  · intro db url r n hrec horig hne
    unfold findOriginName
    rw [hrec]
    dsimp only
    rw [horig]
    dsimp only
    rw [if_neg hne]
  · intro db fn uuid n h
    unfold decodeOutputName
    rw [h]
    exact ⟨rfl, pyStem_append_pySuffix n⟩
  · intro db fn uuid hnone
    have hfilter : db.filter
        (fun r => decide (r.video_url = some ("/api/download/" ++ fn))) = [] := by
      rw [List.filter_eq_nil_iff]
      intro x hx
      simp only [decide_eq_true_eq]
      exact hnone x hx
    unfold decodeOutputName findOriginName findOriginRecord
    rw [hfilter]
    rfl

/-- Sample provenance row (the older record for an artifact). -/
def sampleRowOld : FileRow :=
  ⟨"f1", "report.pdf", "encoded", 10, 1, some ("/api/download/v.mp4"),
   some ("report.pdf"), none, none⟩

/-- Sample provenance row (a later record for the same artifact). -/
def sampleRowNew : FileRow :=
  ⟨"f2", "latest.pdf", "encoded", 11, 2, some ("/api/download/v.mp4"),
   some ("latest.pdf"), none, none⟩

/-- Sample `files` table with two records sharing one `video_url`. -/
def sampleDb : List FileRow := [sampleRowOld, sampleRowNew]

/-- Witness for `origin_name_lookup`: with two records for the same
artifact, the later one (`created_at` 2 over 1) supplies the origin name
and the decode output name keeps its stem and `.pdf` extension. -/
theorem origin_name_lookup_witness :
    (findOriginRecord sampleDb ("/api/download/v.mp4") = some sampleRowNew ∧
      sampleRowNew.original_file = some ("latest.pdf") ∧
      ("latest.pdf" : String) ≠ "" ∧
      findOriginName sampleDb ("/api/download/" ++ "v.mp4")
        = some ("latest.pdf")) ∧
    (sampleRowNew ∈ sampleDb ∧
      sampleRowNew.video_url = some ("/api/download/v.mp4") ∧
      ∀ x ∈ sampleDb, x.video_url = some ("/api/download/v.mp4") →
        x.created_at ≤ sampleRowNew.created_at) ∧
    findOriginName sampleDb ("/api/download/v.mp4") = some ("latest.pdf") ∧
    (decodeOutputName sampleDb ("v.mp4") ("u")
        = "u" ++ "_" ++ pyStem ("latest.pdf") ++ pySuffix ("latest.pdf") ∧
      pyStem ("latest.pdf") ++ pySuffix ("latest.pdf") = "latest.pdf") :=
  ⟨⟨by decide, by decide, by decide, by decide⟩,
   origin_name_lookup.1 sampleDb ("/api/download/v.mp4") sampleRowNew
     (by decide),
   origin_name_lookup.2.2.1 sampleDb ("/api/download/v.mp4") sampleRowNew
     ("latest.pdf") (by decide) (by decide) (by decide),
   origin_name_lookup.2.2.2.1 sampleDb ("v.mp4") ("u") ("latest.pdf")
     (by decide)⟩

/-- Claim C7: deleting an unknown id returns the 404 result and leaves the
whole state untouched; deleting a known id reports success, removes every
row with that id (a later lookup finds nothing), removes the backing output
artifact named by the record's `video_url`, and removes the retained
original upload named by `original_file`. -/
theorem delete_record_spec :
    ∀ (st : StoreState) (fid : String),
      (findRowById st.files fid = none →
        delete_file_record st fid = (DeleteResult.notFound, st)) ∧
      (∀ row, findRowById st.files fid = some row →
        (delete_file_record st fid).1 = DeleteResult.ok ∧
        findRowById (delete_file_record st fid).2.files fid = none ∧
        (∀ url, row.video_url = some url → url ≠ "" → st.outputs.Nodup →
          lastUrlComponent url ∉ (delete_file_record st fid).2.outputs) ∧
        (∀ orig, row.original_file = some orig → orig ≠ "" →
          st.uploads.Nodup → orig ∉ (delete_file_record st fid).2.uploads)) := by
  intro st fid
  constructor
  · intro hnone
    unfold delete_file_record
    rw [hnone]
  · intro row hrow
    unfold delete_file_record
    rw [hrow]
    dsimp only
    refine ⟨rfl, ?_, ?_, ?_⟩
    · unfold findRowById
      rw [List.find?_eq_none]
      intro x hx
      rw [List.mem_filter] at hx
      have hne : x.id ≠ fid := of_decide_eq_true hx.2
      simp [hne]
    · intro url hurl hne hnodup
      rw [hurl]
      dsimp only
      rw [if_neg hne]
      exact hnodup.not_mem_erase
    · intro orig horig hne hnodup
      rw [horig]
      dsimp only
      rw [if_neg hne]
      exact hnodup.not_mem_erase

/-- Sample store: one record whose artifact is `v.mp4` in the output folder
and whose retained original upload is `report.pdf`. -/
def sampleStore : StoreState :=
  ⟨[sampleRowOld], ["v.mp4", "other.mp4"], ["report.pdf", "other.pdf"]⟩

/-- Witness for `delete_record_spec`: deleting record `f1` succeeds, the
row is gone from the table and both backing files are gone from the
folders; deleting the unknown id `zz` returns 404 and changes nothing. -/
theorem delete_record_spec_witness :
    (findRowById sampleStore.files ("f1") = some sampleRowOld ∧
      sampleRowOld.video_url = some ("/api/download/v.mp4") ∧
      sampleRowOld.original_file = some ("report.pdf") ∧
      sampleStore.outputs.Nodup ∧ sampleStore.uploads.Nodup ∧
      findRowById sampleStore.files ("zz") = none) ∧
    ((delete_file_record sampleStore ("f1")).1 = DeleteResult.ok ∧
      findRowById (delete_file_record sampleStore ("f1")).2.files ("f1")
        = none) ∧
    lastUrlComponent ("/api/download/v.mp4")
        ∉ (delete_file_record sampleStore ("f1")).2.outputs ∧
    ("report.pdf" : String)
        ∉ (delete_file_record sampleStore ("f1")).2.uploads ∧
    delete_file_record sampleStore ("zz")
        = (DeleteResult.notFound, sampleStore) :=
  ⟨⟨by decide, by decide, by decide, by decide, by decide, by decide⟩,
   ⟨((delete_record_spec sampleStore ("f1")).2 sampleRowOld (by decide)).1,
    ((delete_record_spec sampleStore ("f1")).2 sampleRowOld (by decide)).2.1⟩,
   ((delete_record_spec sampleStore ("f1")).2 sampleRowOld (by decide)).2.2.1
     ("/api/download/v.mp4") (by decide) (by decide) (by decide),
   ((delete_record_spec sampleStore ("f1")).2 sampleRowOld (by decide)).2.2.2
     ("report.pdf") (by decide) (by decide) (by decide),
   (delete_record_spec sampleStore ("zz")).1 (by decide)⟩

/-! ### The job lifecycle (claims about `encode_task` / `decode_task`) -/

/-- The transitions the claimed lifecycle allows between two successive
observations of a job: stay put, Pending→Running, or Running→terminal.
In particular Completed can never be followed by Failed, no step skips
Running, and nothing leaves a terminal status. -/
def statusStep (a b : JobStatus) : Prop :=
  a = b ∨ (a = JobStatus.pending ∧ b = JobStatus.running) ∨
    (a = JobStatus.running ∧
      (b = JobStatus.completed ∨ b = JobStatus.failed))

instance statusStepDecidable : DecidableRel statusStep := fun a b => by
  unfold statusStep
  infer_instance

/-- The property claim C2 asserts of one job's observable trace, exactly as
stated: statuses move only along the allowed transitions, the whole
progress sequence is non-decreasing, and every state whose status is
Completed carries progress exactly 100.  The counterexample below shows
the code violates the last two conjuncts. -/
def claimedLifecycleTrace (t : List Job) : Prop :=
  List.Chain' statusStep (t.map Job.status) ∧
    List.Chain' (fun a b : Nat => a ≤ b) (t.map Job.progress) ∧
    ∀ s ∈ t, s.status = JobStatus.completed → s.progress = 100

/-- The callback states report the progress values computed from the
starting job's `total_size`. -/
theorem cbStates_map_progress (cbs : List Nat) :
    ∀ (j : Job), (cbStates j cbs).map Job.progress
      = cbs.map (progressValue j.total_size) := by
  induction cbs with
  | nil => intro j; rfl
  | cons b rest ih =>
    intro j
    simp only [cbStates, List.map_cons]
    rw [ih]

/-- Callback deliveries never change the status. -/
theorem cbStates_map_status (cbs : List Nat) :
    ∀ (j : Job), (cbStates j cbs).map Job.status
      = List.replicate cbs.length j.status := by
  induction cbs with
  | nil => intro j; rfl
  | cons b rest ih =>
    intro j
    simp only [cbStates, List.map_cons, List.length_cons,
      List.replicate_succ]
    rw [ih]

/-- `progressValue` is monotone in the reported byte count. -/
theorem progressValue_mono (T : Option Nat) (a b : Nat) (h : a ≤ b) :
    progressValue T a ≤ progressValue T b := by
  cases T with
  | none => exact Nat.le_refl 50
  | some t =>
    simp only [progressValue]
    split_ifs with ht
    · exact Nat.div_le_div_right (Nat.mul_le_mul_right 100 h)
    · exact Nat.le_refl 50

/-- As long as the engine reports at most `total_size` bytes, the computed
progress stays within 100. -/
theorem progressValue_le_100 (t b : Nat) (hb : b ≤ t) :
    progressValue (some t) b ≤ 100 := by
  simp only [progressValue]
  split_ifs with ht
  · calc b * 100 / t ≤ t * 100 / t :=
        Nat.div_le_div_right (Nat.mul_le_mul_right 100 hb)
      _ = 100 := by rw [Nat.mul_comm]; exact Nat.mul_div_cancel 100 ht
  · exact Nat.le_of_lt (by decide)

/-- A run of Running states in front of any valid continuation of Running
is still a valid status chain. -/
theorem chain_replicate_append (k : Nat) (ts : List JobStatus)
    (h : List.Chain' statusStep (JobStatus.running :: ts)) :
    List.Chain' statusStep
      (JobStatus.running :: (List.replicate k JobStatus.running ++ ts)) := by
  induction k with
  | zero => exact h
  | succ n ih =>
    rw [List.replicate_succ, List.cons_append]
    exact List.chain'_cons.mpr ⟨Or.inl rfl, ih⟩

/-- The job state the worker holds after the callbacks reports the last
delivered progress value (or the initial one when none was delivered). -/
theorem lastState_progress (s2 : Job) (cbs : List Nat) :
    ∀ y ∈ (cbs.map (progressValue s2.total_size)).getLast?,
      (((cbStates s2 cbs).getLast?).getD s2).progress = y := by
  intro y hy
  rw [Option.mem_def, ← cbStates_map_progress cbs s2, List.getLast?_map] at hy
  rcases Option.map_eq_some'.mp hy with ⟨x, hx, hxy⟩
  rw [hx]
  exact hxy

/-- Under the byte bound, the progress held when the codec call returns is
at most 100. -/
theorem lastState_progress_le (s2 : Job) (inputSize : Nat) (cbs : List Nat)
    (h2p : s2.progress = 0) (h2t : s2.total_size = some inputSize)
    (hbd : ∀ b ∈ cbs, b ≤ inputSize) :
    (((cbStates s2 cbs).getLast?).getD s2).progress ≤ 100 := by
  cases hlv : (cbs.map (progressValue (some inputSize))).getLast? with
  | none =>
    have hvs : cbs.map (progressValue (some inputSize)) = [] :=
      List.getLast?_eq_none_iff.mp hlv
    have hcbs : cbs = [] := List.map_eq_nil_iff.mp hvs
    subst hcbs
    show s2.progress ≤ 100
    rw [h2p]
    exact Nat.le_of_lt (by decide)
  | some y =>
    have hmem : y ∈ (cbs.map (progressValue s2.total_size)).getLast? := by
      rw [Option.mem_def, h2t]
      exact hlv
    rw [lastState_progress s2 cbs y hmem]
    rcases List.mem_map.mp (List.mem_of_mem_getLast?
        (by rw [Option.mem_def]; exact hlv)) with ⟨b, hb, hfb⟩
    rw [← hfb]
    exact progressValue_le_100 inputSize b (hbd b hb)

/-- Status-chain shape lemma: the Pending creation state, two Running
states, the callback states and any valid terminal continuation form a
valid status chain. -/
theorem trace_status_chain (s1 s2 j0 : Job) (cbs : List Nat)
    (terms : List Job)
    (h0s : j0.status = JobStatus.pending)
    (h1s : s1.status = JobStatus.running)
    (h2s : s2.status = JobStatus.running)
    (hts : List.Chain' statusStep
      (JobStatus.running :: terms.map Job.status)) :
    List.Chain' statusStep
      ((j0 :: s1 :: s2 :: (cbStates s2 cbs ++ terms)).map Job.status) := by
  have hmapst : (cbStates s2 cbs).map Job.status
      = List.replicate cbs.length JobStatus.running := by
    rw [cbStates_map_status cbs s2, h2s]
  simp only [List.map_cons, List.map_append, h0s, h1s, h2s, hmapst]
  refine List.chain'_cons.mpr ⟨Or.inr (Or.inl ⟨rfl, rfl⟩), ?_⟩
  refine List.chain'_cons.mpr ⟨Or.inl rfl, ?_⟩
  exact chain_replicate_append cbs.length (terms.map Job.status) hts

/-- Progress-chain shape lemma: with non-decreasing callback byte counts,
the trace's progress sequence is non-decreasing provided the terminal
segment is and it dominates the last callback value. -/
theorem trace_progress_chain (s1 s2 j0 : Job) (inputSize : Nat)
    (cbs : List Nat) (terms : List Job)
    (h0p : j0.progress = 0) (h1p : s1.progress = 0) (h2p : s2.progress = 0)
    (h2t : s2.total_size = some inputSize)
    (hch : List.Chain' (fun a b : Nat => a ≤ b) cbs)
    (htp : List.Chain' (fun a b : Nat => a ≤ b) (terms.map Job.progress))
    (hbnd : ∀ y ∈ (cbs.map (progressValue (some inputSize))).getLast?,
      ∀ z ∈ (terms.map Job.progress).head?, y ≤ z) :
    List.Chain' (fun a b : Nat => a ≤ b)
      ((j0 :: s1 :: s2 :: (cbStates s2 cbs ++ terms)).map Job.progress) := by
  have hmappr : (cbStates s2 cbs).map Job.progress
      = cbs.map (progressValue (some inputSize)) := by
    rw [cbStates_map_progress cbs s2, h2t]
  simp only [List.map_cons, List.map_append, h0p, h1p, h2p, hmappr]
  refine List.chain'_cons.mpr ⟨Nat.le_refl 0, ?_⟩
  refine List.chain'_cons'.mpr ⟨fun y _ => Nat.zero_le y, ?_⟩
  refine List.chain'_cons'.mpr ⟨fun y _ => Nat.zero_le y, ?_⟩
  refine List.chain'_append.mpr ⟨?_, htp, hbnd⟩
  exact (List.chain'_map (progressValue (some inputSize))).mpr
    (hch.imp fun a b h => progressValue_mono (some inputSize) a b h)

/-- The status sequence of every worker trace follows the allowed
transitions, on all outcome paths, unconditionally. -/
theorem runWorker_status_chain (j0 : Job) (inputSize : Nat) (cbs : List Nat)
    (opOk outputExists registryOk : Bool)
    (resultUrl errMsg missingMsg : String) (newRow : FileRow)
    (db : List FileRow) (hst : j0.status = JobStatus.pending) :
    List.Chain' statusStep
      ((runWorker j0 inputSize cbs opOk outputExists registryOk resultUrl
        errMsg missingMsg newRow db).1.map Job.status) := by
  have hcomp : statusStep JobStatus.running JobStatus.completed :=
    Or.inr (Or.inr ⟨rfl, Or.inl rfl⟩)
  have hfail : statusStep JobStatus.running JobStatus.failed :=
    Or.inr (Or.inr ⟨rfl, Or.inr rfl⟩)
  cases opOk with
  | true =>
    cases outputExists with
    | true =>
      refine trace_status_chain _ _ j0 cbs _ hst ?_ ?_ ?_
      · exact rfl
      · exact rfl
      · exact List.chain'_cons.mpr ⟨hcomp,
          List.chain'_cons.mpr ⟨Or.inl rfl,
            List.chain'_pair.mpr (Or.inl rfl)⟩⟩
    | false =>
      refine trace_status_chain _ _ j0 cbs _ hst ?_ ?_ ?_
      · exact rfl
      · exact rfl
      · exact List.chain'_cons.mpr ⟨hfail, List.chain'_pair.mpr (Or.inl rfl)⟩
  | false =>
    refine trace_status_chain _ _ j0 cbs _ hst ?_ ?_ ?_
    · exact rfl
    · exact rfl
    · exact List.chain'_cons.mpr ⟨hfail, List.chain'_pair.mpr (Or.inl rfl)⟩

/-- Under the engine byte bound, the progress sequence of every worker
trace is non-decreasing, on all outcome paths — including across the
stepwise terminal assignments. -/
theorem runWorker_progress_chain (j0 : Job) (inputSize : Nat)
    (cbs : List Nat) (opOk outputExists registryOk : Bool)
    (resultUrl errMsg missingMsg : String) (newRow : FileRow)
    (db : List FileRow) (hpr : j0.progress = 0)
    (hch : List.Chain' (fun a b : Nat => a ≤ b) cbs)
    (hbd : ∀ b ∈ cbs, b ≤ inputSize) :
    List.Chain' (fun a b : Nat => a ≤ b)
      ((runWorker j0 inputSize cbs opOk outputExists registryOk resultUrl
        errMsg missingMsg newRow db).1.map Job.progress) := by
  have hbnd : ∀ y ∈ (cbs.map (progressValue (some inputSize))).getLast?,
      ∀ z, (((cbStates
          (⟨j0.job_id, j0.operation, j0.input_file, j0.output_file,
            JobStatus.running, j0.progress, j0.error_message, j0.result_url,
            some inputSize⟩ : Job) cbs).getLast?).getD
          (⟨j0.job_id, j0.operation, j0.input_file, j0.output_file,
            JobStatus.running, j0.progress, j0.error_message, j0.result_url,
            some inputSize⟩ : Job)).progress = z → y ≤ z := by
    intro y hy z hz
    rw [← hz]
    exact Nat.le_of_eq (lastState_progress _ cbs y hy).symm
  have hstale : (((cbStates
      (⟨j0.job_id, j0.operation, j0.input_file, j0.output_file,
        JobStatus.running, j0.progress, j0.error_message, j0.result_url,
        some inputSize⟩ : Job) cbs).getLast?).getD
      (⟨j0.job_id, j0.operation, j0.input_file, j0.output_file,
        JobStatus.running, j0.progress, j0.error_message, j0.result_url,
        some inputSize⟩ : Job)).progress ≤ 100 :=
    lastState_progress_le _ inputSize cbs hpr rfl hbd
  cases opOk with
  | true =>
    cases outputExists with
    | true =>
      refine trace_progress_chain _ _ j0 inputSize cbs _ hpr ?_ ?_ ?_ hch
        ?_ ?_
      · exact hpr
      · exact hpr
      · exact rfl
      · exact List.chain'_cons.mpr ⟨hstale,
          List.chain'_pair.mpr (Nat.le_refl 100)⟩
      · intro y hy z hz
        exact hbnd y hy z (Option.some.inj (Option.mem_def.mp hz))
    | false =>
      refine trace_progress_chain _ _ j0 inputSize cbs _ hpr ?_ ?_ ?_ hch
        ?_ ?_
      · exact hpr
      · exact hpr
      · exact rfl
      · exact List.chain'_pair.mpr (Nat.le_refl _)
      · intro y hy z hz
        exact hbnd y hy z (Option.some.inj (Option.mem_def.mp hz))
  | false =>
    refine trace_progress_chain _ _ j0 inputSize cbs _ hpr ?_ ?_ ?_ hch
      ?_ ?_
    · exact hpr
    · exact hpr
    · exact rfl
    · exact List.chain'_pair.mpr (Nat.le_refl _)
    · intro y hy z hz
      exact hbnd y hy z (Option.some.inj (Option.mem_def.mp hz))

/-- The last element of a success-path trace is its third terminal state. -/
theorem cons3_append3_getLast (a b c : Job) (l : List Job) (x y z : Job) :
    (a :: b :: c :: (l ++ [x, y, z])).getLast? = some z := by
  have h : a :: b :: c :: (l ++ [x, y, z])
      = (a :: b :: c :: (l ++ [x, y])) ++ [z] := by
    simp [List.cons_append, List.append_assoc]
  rw [h, List.getLast?_concat]

/-- The last element of a failure-path trace is its second terminal
state. -/
theorem cons3_append2_getLast (a b c : Job) (l : List Job) (x y : Job) :
    (a :: b :: c :: (l ++ [x, y])).getLast? = some y := by
  have h : a :: b :: c :: (l ++ [x, y])
      = (a :: b :: c :: (l ++ [x])) ++ [y] := by
    simp [List.cons_append, List.append_assoc]
  rw [h, List.getLast?_concat]

/-- The settled (final) state of every worker trace has progress 100
whenever its status is Completed — on the failure paths the final status is
Failed and the condition is vacuous. -/
theorem runWorker_last (j0 : Job) (inputSize : Nat) (cbs : List Nat)
    (opOk outputExists registryOk : Bool)
    (resultUrl errMsg missingMsg : String) (newRow : FileRow)
    (db : List FileRow) :
    ∀ j ∈ (runWorker j0 inputSize cbs opOk outputExists registryOk resultUrl
        errMsg missingMsg newRow db).1.getLast?,
      j.status = JobStatus.completed → j.progress = 100 := by
  intro j hj
  have hj2 := Option.mem_def.mp hj
  cases opOk with
  | true =>
    cases outputExists with
    | true =>
      have h2 := (cons3_append3_getLast _ _ _ _ _ _ _).symm.trans hj2
      have h3 := Option.some.inj h2
      subst h3
      exact fun _ => rfl
    | false =>
      have h2 := (cons3_append2_getLast _ _ _ _ _ _).symm.trans hj2
      have h3 := Option.some.inj h2
      subst h3
      exact fun h => JobStatus.noConfusion h
  | false =>
    have h2 := (cons3_append2_getLast _ _ _ _ _ _).symm.trans hj2
    have h3 := Option.some.inj h2
    subst h3
    exact fun h => JobStatus.noConfusion h

/-- Claim C2, counterexample: the code violates the claim as stated.  An
encode job of 100 bytes whose single callback reports 200 bytes (the
unclamped overshoot regime) is observed with progress values
0, 0, 0, 200, 200, 100, 100: the sequence is not non-decreasing — progress
200 is forced down to 100 on completion — and, because the Completed
transition is three separate unsynchronized assignments
(app.py 303–305), the trace contains a state with status Completed whose
progress is still the stale 200, not 100. -/
theorem job_lifecycle_cex :
    ((encode_task ("j") ("i") ("o") 100 [200] true true true ("v.mp4") ("")
        ("orig") 5 1 ("r") []).1.map Job.progress
      = [0, 0, 0, 200, 200, 100, 100]) ∧
    (∃ s ∈ (encode_task ("j") ("i") ("o") 100 [200] true true true ("v.mp4")
        ("") ("orig") 5 1 ("r") []).1,
      s.status = JobStatus.completed ∧ ¬ s.progress = 100) ∧
    ¬ List.Chain' (fun a b : Nat => a ≤ b)
      ((encode_task ("j") ("i") ("o") 100 [200] true true true ("v.mp4") ("")
        ("orig") 5 1 ("r") []).1.map Job.progress) ∧
    ¬ claimedLifecycleTrace (encode_task ("j") ("i") ("o") 100 [200] true
        true true ("v.mp4") ("") ("orig") 5 1 ("r") []).1 := by
  have hmap : (encode_task ("j") ("i") ("o") 100 [200] true true true
      ("v.mp4") ("") ("orig") 5 1 ("r") []).1.map Job.progress
      = [0, 0, 0, 200, 200, 100, 100] := by decide
  have hex : ∃ s ∈ (encode_task ("j") ("i") ("o") 100 [200] true true true
      ("v.mp4") ("") ("orig") 5 1 ("r") []).1,
      s.status = JobStatus.completed ∧ ¬ s.progress = 100 := by decide
  have hchain : ¬ List.Chain' (fun a b : Nat => a ≤ b)
      ((encode_task ("j") ("i") ("o") 100 [200] true true true ("v.mp4") ("")
        ("orig") 5 1 ("r") []).1.map Job.progress) := by
    intro h
    rw [hmap] at h
    have h1 := (List.chain'_cons.mp h).2
    have h2 := (List.chain'_cons.mp h1).2
    have h3 := (List.chain'_cons.mp h2).2
    have h4 := (List.chain'_cons.mp h3).2
    exact absurd (List.chain'_cons.mp h4).1 (by decide)
  refine ⟨hmap, hex, hchain, ?_⟩
  intro hcl
  obtain ⟨s, hs, hstat, hprog⟩ := hex
  exact hprog (hcl.2.2 s hs hstat)

/-- Claim C2, amended: within one job — encode or decode, every outcome
path — the status sequence follows Pending→Running→{Completed|Failed} with
no skips and no reversals (in particular nothing ever moves a Completed
job to Failed), unconditionally; the settled final state carries progress
exactly 100 whenever it is Completed (transiently, between the
unsynchronized terminal assignments, a Completed state with the stale
pre-completion progress is observable); and the progress sequence is
non-decreasing provided the engine's reported byte counts are
non-decreasing and never exceed `total_size` — without that bound the
unclamped formula lets progress overshoot 100 and then drop back to 100 on
completion, as the counterexample shows. -/
theorem job_lifecycle_amended
    (jid inFile outFile : String) (inputSize : Nat) (cbs : List Nat)
    (opOk outputExists registryOk : Bool)
    (outputName errMsg origNameE : String) (origNameD : Option String)
    (outSize tstamp : Nat) (rid chksum : String) (db : List FileRow) :
    List.Chain' statusStep ((encode_task jid inFile outFile inputSize cbs
        opOk outputExists registryOk outputName errMsg origNameE outSize
        tstamp rid db).1.map Job.status) ∧
    List.Chain' statusStep ((decode_task jid inFile outFile inputSize cbs
        opOk outputExists registryOk outputName errMsg origNameD outSize
        tstamp rid chksum db).1.map Job.status) ∧
    (∀ j ∈ (encode_task jid inFile outFile inputSize cbs opOk outputExists
        registryOk outputName errMsg origNameE outSize tstamp rid
        db).1.getLast?,
      j.status = JobStatus.completed → j.progress = 100) ∧
    (∀ j ∈ (decode_task jid inFile outFile inputSize cbs opOk outputExists
        registryOk outputName errMsg origNameD outSize tstamp rid chksum
        db).1.getLast?,
      j.status = JobStatus.completed → j.progress = 100) ∧
    (List.Chain' (fun a b : Nat => a ≤ b) cbs →
      (∀ b ∈ cbs, b ≤ inputSize) →
      List.Chain' (fun a b : Nat => a ≤ b) ((encode_task jid inFile outFile
        inputSize cbs opOk outputExists registryOk outputName errMsg
        origNameE outSize tstamp rid db).1.map Job.progress) ∧
      List.Chain' (fun a b : Nat => a ≤ b) ((decode_task jid inFile outFile
        inputSize cbs opOk outputExists registryOk outputName errMsg
        origNameD outSize tstamp rid chksum db).1.map Job.progress)) :=
  ⟨runWorker_status_chain _ _ _ _ _ _ _ _ _ _ _ rfl,
   runWorker_status_chain _ _ _ _ _ _ _ _ _ _ _ rfl,
   runWorker_last _ _ _ _ _ _ _ _ _ _ _,
   runWorker_last _ _ _ _ _ _ _ _ _ _ _,
   fun hch hbd =>
     ⟨runWorker_progress_chain _ _ _ _ _ _ _ _ _ _ _ rfl hch hbd,
      runWorker_progress_chain _ _ _ _ _ _ _ _ _ _ _ rfl hch hbd⟩⟩

/-- Witness for `job_lifecycle_amended`: a 10-byte job with two callback
deliveries (4 then 10 bytes) on the fully successful path, discharging the
engine-bound hypotheses of the progress conjunct. -/
theorem job_lifecycle_amended_witness :
    (List.Chain' (fun a b : Nat => a ≤ b) [4, 10] ∧
      ∀ b ∈ [4, 10], b ≤ 10) ∧
    List.Chain' statusStep ((encode_task ("j") ("in.bin") ("out.mp4") 10
        [4, 10] true true true ("o.mp4") ("") ("orig.bin") 5 1 ("r1")
        []).1.map Job.status) ∧
    (List.Chain' (fun a b : Nat => a ≤ b) ((encode_task ("j") ("in.bin")
        ("out.mp4") 10 [4, 10] true true true ("o.mp4") ("") ("orig.bin") 5
        1 ("r1") []).1.map Job.progress) ∧
      List.Chain' (fun a b : Nat => a ≤ b) ((decode_task ("j") ("in.bin")
        ("out.mp4") 10 [4, 10] true true true ("o.mp4") ("")
        (some ("orig.bin")) 5 1 ("r1") ("c") []).1.map Job.progress)) :=
  ⟨⟨List.chain'_pair.mpr (by decide), by decide⟩,
   (job_lifecycle_amended ("j") ("in.bin") ("out.mp4") 10 [4, 10] true true
     true ("o.mp4") ("") ("orig.bin") (some ("orig.bin")) 5 1 ("r1") ("c")
     []).1,
   (job_lifecycle_amended ("j") ("in.bin") ("out.mp4") 10 [4, 10] true true
     true ("o.mp4") ("") ("orig.bin") (some ("orig.bin")) 5 1 ("r1") ("c")
     []).2.2.2.2 (List.chain'_pair.mpr (by decide)) (by decide)⟩

/-- On the success path the final observed job state is Completed with
progress 100 and the result locator set — whatever happened to the
registry bookkeeping. -/
theorem completed_final_state (j0 : Job) (inputSize : Nat) (cbs : List Nat)
    (registryOk : Bool) (resultUrl errMsg missingMsg : String)
    (newRow : FileRow) (db : List FileRow) :
    ∀ j, (runWorker j0 inputSize cbs true true registryOk resultUrl errMsg
        missingMsg newRow db).1.getLast? = some j →
      j.status = JobStatus.completed ∧ j.progress = 100 ∧
        j.result_url = some resultUrl := by
  intro j hj
  have h2 := (cons3_append3_getLast _ _ _ _ _ _ _).symm.trans hj
  have h3 := Option.some.inj h2
  subst h3
  exact ⟨rfl, rfl, rfl⟩

/-- Claim C5: when the primary encode/decode succeeded and the output
exists, the final job state is Completed with progress 100 and its result
locator set, whether or not the post-success registry bookkeeping step
failed; the job-state trace does not depend on the bookkeeping outcome at
all (so a bookkeeping failure can never flip the job back to Failed), and
a failed bookkeeping step leaves the `files` table untouched. -/
theorem completed_survives_registry_failure
    (jid inFile outFile : String) (inputSize : Nat) (cbs : List Nat)
    (registryOk : Bool) (outputName errMsg origNameE : String)
    (origNameD : Option String) (outSize tstamp : Nat) (rid chksum : String)
    (db : List FileRow) :
    (∀ j, (encode_task jid inFile outFile inputSize cbs true true registryOk
        outputName errMsg origNameE outSize tstamp rid db).1.getLast?
          = some j →
      j.status = JobStatus.completed ∧ j.progress = 100 ∧
        j.result_url = some ("/api/download/" ++ outputName)) ∧
    (encode_task jid inFile outFile inputSize cbs true true false
        outputName errMsg origNameE outSize tstamp rid db).1
      = (encode_task jid inFile outFile inputSize cbs true true true
        outputName errMsg origNameE outSize tstamp rid db).1 ∧
    (encode_task jid inFile outFile inputSize cbs true true false
        outputName errMsg origNameE outSize tstamp rid db).2 = db ∧
    (∀ j, (decode_task jid inFile outFile inputSize cbs true true registryOk
        outputName errMsg origNameD outSize tstamp rid chksum db).1.getLast?
          = some j →
      j.status = JobStatus.completed ∧ j.progress = 100 ∧
        j.result_url = some ("/api/download/" ++ outputName)) ∧
    (decode_task jid inFile outFile inputSize cbs true true false
        outputName errMsg origNameD outSize tstamp rid chksum db).1
      = (decode_task jid inFile outFile inputSize cbs true true true
        outputName errMsg origNameD outSize tstamp rid chksum db).1 ∧
    (decode_task jid inFile outFile inputSize cbs true true false
        outputName errMsg origNameD outSize tstamp rid chksum db).2 = db :=
  ⟨completed_final_state _ _ _ _ _ _ _ _ _, rfl, rfl,
   completed_final_state _ _ _ _ _ _ _ _ _, rfl, rfl⟩

/-- Witness for `completed_survives_registry_failure`: with the bookkeeping
step failing (`registryOk = false`), the final job state of a successful
10-byte encode is Completed/100 with its locator set. -/
theorem completed_survives_registry_failure_witness :
    ((encode_task ("j") ("i") ("o") 10 [4] true true false ("v.mp4") ("")
        ("orig.bin") 5 1 ("r") []).1.getLast?
      = some (⟨"j", "encode", "i", "o", JobStatus.completed, 100, none,
          some ("/api/download/v.mp4"), some 10⟩ : Job)) ∧
    ((⟨"j", "encode", "i", "o", JobStatus.completed, 100, none,
          some ("/api/download/v.mp4"), some 10⟩ : Job).status
        = JobStatus.completed ∧
      (⟨"j", "encode", "i", "o", JobStatus.completed, 100, none,
          some ("/api/download/v.mp4"), some 10⟩ : Job).progress = 100 ∧
      (⟨"j", "encode", "i", "o", JobStatus.completed, 100, none,
          some ("/api/download/v.mp4"), some 10⟩ : Job).result_url
        = some ("/api/download/" ++ "v.mp4")) :=
  ⟨by decide,
   (completed_survives_registry_failure ("j") ("i") ("o") 10 [4] false
     ("v.mp4") ("") ("orig.bin") (some ("x")) 5 1 ("r") ("c") []).1
     (⟨"j", "encode", "i", "o", JobStatus.completed, 100, none,
       some ("/api/download/v.mp4"), some 10⟩ : Job) (by decide)⟩
